import Mathlib

/-!
The program teleop_control: keyboard teleoperation loop.

A shallow embedding of `src/main.cpp`: the terminal handling of
`KeyboardReader`, the parameter selection of `main`, the key loop of
`TeleopControl::keyLoop` and the shutdown path `quit`.

Modelling conventions.

* A C `double` is a rational number (`Vel`).  The program only copies and
  negates velocities, and both operations are exact on doubles, so no rounding
  is involved.  Not-a-number and the infinities are outside the model.
* The `char c` of `keyLoop` is the integer the `switch` sees after promotion.
* The terminal is a value of type `Termios`; `tcgetattr` reads it and
  `tcsetattr` replaces it.  The POSIX branch (`#ifndef _WIN32`) is the one
  embedded.
* The keyboard is a finite list of outcomes of `read(kfd, c, 1)`.  When the
  list is used up the loop is blocked inside `read`.
* Calls that reach outside the process are recorded, in order, as `Effect`s.
* The conversion function `atof` belongs to the C library, not to the program;
  `main` takes it as a parameter.  Worked examples use the stand-in
  `atofDecimal` at concrete parameter strings.
-/

namespace Teleop

/-! ## Key codes (`#define KEYCODE_...`) -/

def KEYCODE_RIGHT : Int := 0x43
def KEYCODE_LEFT : Int := 0x44
def KEYCODE_UP : Int := 0x41
def KEYCODE_DOWN : Int := 0x42
def KEYCODE_Q : Int := 0x71

/-! ## Terminal -/

/-- The fields of `struct termios`: four flag words (`tcflag_t`, 32 bits), the
line discipline, the control characters `c_cc` and the two line speeds. -/
structure Termios where
  c_iflag : Nat
  c_oflag : Nat
  c_cflag : Nat
  c_lflag : Nat
  c_line : Nat
  c_cc : List Nat
  c_ispeed : Nat
  c_ospeed : Nat
deriving DecidableEq, Repr

/-- Value of `ICANON` in the Linux `termios.h`. -/
def ICANON : Nat := 0x2
/-- Value of `ECHO` in the Linux `termios.h`. -/
def ECHO : Nat := 0x8
/-- Index `VEOL` in the Linux `termios.h`. -/
def VEOL : Nat := 11
/-- Index `VEOF` in the Linux `termios.h`. -/
def VEOF : Nat := 4

/-- The statement `raw.c_lflag &= ~(ICANON | ECHO)` on a 32-bit flag word. -/
def clearCanonEcho (lflag : Nat) : Nat :=
  lflag &&& (0xFFFFFFFF ^^^ (ICANON ||| ECHO))

/-- The local `raw` of the constructor: a copy of `cooked` with canonical mode
and echo switched off, `c_cc[VEOL] = 1` and `c_cc[VEOF] = 2`. -/
def rawOf (cooked : Termios) : Termios :=
  { cooked with
    c_lflag := clearCanonEcho cooked.c_lflag
    c_cc := (cooked.c_cc.set VEOL 1).set VEOF 2 }

/-- The object `KeyboardReader`: the descriptor `kfd` and the snapshot
`cooked`. -/
structure KeyboardReader where
  kfd : Int
  cooked : Termios
deriving DecidableEq, Repr

/-- Constructor `KeyboardReader::KeyboardReader`, run on the terminal
configuration `term`: `tcgetattr(kfd, &cooked)` captures it, and
`tcsetattr(kfd, TCSANOW, &raw)` installs the raw copy.  Returns the reader and
the new terminal configuration. -/
def KeyboardReader.create (term : Termios) : KeyboardReader × Termios :=
  let cooked := term
  let raw := rawOf cooked
  ({ kfd := 0, cooked := cooked }, raw)

/-- Method `KeyboardReader::shutdown`, run on the terminal configuration
`term`: `tcsetattr(kfd, TCSANOW, &cooked)`.  The method is `void`, ignores the
result of `tcsetattr` and throws nothing.  Returns the reader and the new
terminal configuration. -/
def KeyboardReader.shutdown (input : KeyboardReader) (_term : Termios) :
    KeyboardReader × Termios :=
  (input, input.cooked)

/-- What one call `read(kfd, c, 1)` does: it fails, it reports end of input
without storing anything, or it stores one character. -/
inductive ReadOutcome where
  | failure
  | endOfInput
  | key (code : Int)
deriving DecidableEq, Repr

/-- The value `rc` returned by `read(kfd, c, 1)`. -/
def ReadOutcome.rc : ReadOutcome → Int
  | .failure => -1
  | .endOfInput => 0
  | .key _ => 1

/-- The contents of `*c` after `read(kfd, c, 1)`, given its contents before:
only a delivered character is stored. -/
def ReadOutcome.store : ReadOutcome → Int → Int
  | .key code, _ => code
  | _, c => c

/-- Method `KeyboardReader::readOne`: `rc = read(kfd, c, 1)`, and a
`std::runtime_error` when `rc < 0`.  The argument `c` is the previous content
of the caller's variable; the result is the reader after the call together
with either the exception or the new content of the variable. -/
def KeyboardReader.readOne (input : KeyboardReader) (r : ReadOutcome) (c : Int) :
    KeyboardReader × Except String Int :=
  let c1 := r.store c
  if r.rc < 0 then (input, .error "read failed") else (input, .ok c1)

/-! ## Velocities and the key loop -/

/-- A C `double`. -/
abbrev Vel := ℚ

/-- The two fields of `geometry_msgs::Twist` that the program sets. -/
structure Twist where
  linear_x : Vel
  angular_z : Vel
deriving DecidableEq, Repr

/-- The numeric members of `TeleopControl`. -/
structure TeleopControl where
  linear_vel_max : Vel
  angular_vel_max : Vel
  linear_vel_set : Vel
  angular_vel_set : Vel
deriving DecidableEq, Repr

/-- Constructor `TeleopControl::TeleopControl`. -/
def TeleopControl.create (linear_vel_ angular_vel_ : Vel) : TeleopControl :=
  { linear_vel_set := 0
    angular_vel_set := 0
    linear_vel_max := linear_vel_
    angular_vel_max := angular_vel_ }

/-- A call that leaves the process. -/
inductive Effect where
  | publish (twist : Twist)
  | perror
  | inputShutdown
  | rosShutdown
  | exit (status : Int)
deriving DecidableEq, Repr

/-- The variables alive across iterations of `keyLoop`: the object and the
locals `c` and `dirty`. -/
structure LoopVars where
  ctl : TeleopControl
  c : Int
  dirty : Bool
deriving DecidableEq, Repr

/-- How an iteration of `for (;;)` ends: with `return`, or by going round
again. -/
inductive Flow where
  | returned
  | again
deriving DecidableEq, Repr

/-- The `switch (c)` of `keyLoop`, after `linear_vel_set = angular_vel_set =
0.0`.  There is no `default` label.  The result is `none` for the `return` of
`KEYCODE_Q`. -/
def keySwitch (ctl : TeleopControl) (c : Int) (dirty : Bool) :
    Option (TeleopControl × Bool) :=
  if c = KEYCODE_LEFT then
    some ({ ctl with angular_vel_set := ctl.angular_vel_max }, true)
  else if c = KEYCODE_RIGHT then
    some ({ ctl with angular_vel_set := -ctl.angular_vel_max }, true)
  else if c = KEYCODE_UP then
    some ({ ctl with linear_vel_set := ctl.linear_vel_max }, true)
  else if c = KEYCODE_DOWN then
    some ({ ctl with linear_vel_set := -ctl.linear_vel_max }, true)
  else if c = KEYCODE_Q then
    none
  else
    some (ctl, dirty)

/-- What one iteration of the `for (;;)` leaves behind. -/
structure IterResult where
  input : KeyboardReader
  vars : LoopVars
  effects : List Effect
  flow : Flow
deriving DecidableEq, Repr

/-- One iteration of the `for (;;)` of `keyLoop` on the read outcome `r`,
with the global reader `input`. -/
def keyIter (input : KeyboardReader) (v : LoopVars) (r : ReadOutcome) : IterResult :=
  match input.readOne r v.c with
  | (input1, .error _) =>
    { input := input1, vars := v, effects := [Effect.perror], flow := Flow.returned }
  | (input1, .ok c) =>
    let ctl0 := { v.ctl with linear_vel_set := 0, angular_vel_set := 0 }
    match keySwitch ctl0 c v.dirty with
    | none =>
      { input := input1, vars := { v with ctl := ctl0, c := c }, effects := [],
        flow := Flow.returned }
    | some (ctl1, dirty1) =>
      let twist : Twist :=
        { angular_z := ctl1.angular_vel_set, linear_x := ctl1.linear_vel_set }
      if dirty1 = true then
        { input := input1, vars := { ctl := ctl1, c := c, dirty := false },
          effects := [Effect.publish twist], flow := Flow.again }
      else
        { input := input1, vars := { ctl := ctl1, c := c, dirty := dirty1 },
          effects := [], flow := Flow.again }

/-- Result of running the loop on a finite keyboard script: the reader and the
variables at the end, the effects in order, the read outcomes never consumed,
and whether the loop executed `return` (`true`) or used up the script and is
blocked in `read` (`false`). -/
structure LoopRun where
  input : KeyboardReader
  vars : LoopVars
  effects : List Effect
  unread : List ReadOutcome
  returned : Bool
deriving DecidableEq, Repr

/-- The `for (;;)` of `keyLoop` from the variables `v`. -/
def loopFrom (input : KeyboardReader) (v : LoopVars) : List ReadOutcome → LoopRun
  | [] => { input := input, vars := v, effects := [], unread := [], returned := false }
  | r :: rest =>
    let it := keyIter input v r
    match it.flow with
    | Flow.returned =>
      { input := it.input, vars := it.vars, effects := it.effects, unread := rest,
        returned := true }
    | Flow.again =>
      let run := loopFrom it.input it.vars rest
      { run with effects := it.effects ++ run.effects }

/-- Method `TeleopControl::keyLoop`: `dirty` starts `false`, `c` starts with
the indeterminate content `c0`. -/
def keyLoop (input : KeyboardReader) (ctl : TeleopControl) (c0 : Int)
    (reads : List ReadOutcome) : LoopRun :=
  loopFrom input { ctl := ctl, c := c0, dirty := false } reads

/-- The commands handed to `twist_pub_.publish`, in order. -/
def publishedOf : List Effect → List Twist
  | [] => []
  | Effect.publish t :: rest => t :: publishedOf rest
  | _ :: rest => publishedOf rest

/-! ## Shutdown and `main` -/

/-- Function `quit`: `input.shutdown()`, `ros::shutdown()`, `exit(0)`; the
argument `sig` is discarded.  Returns the reader, the terminal configuration
and the effects. -/
def quit (input : KeyboardReader) (term : Termios) (_sig : Int) :
    KeyboardReader × Termios × List Effect :=
  let (input1, term1) := input.shutdown term
  (input1, term1, [Effect.inputShutdown, Effect.rosShutdown, Effect.exit 0])

/-- The function `isspace` of the C library, in the C locale. -/
def isspace (ch : Char) : Bool :=
  ch.toNat = 32 || (9 ≤ ch.toNat && ch.toNat ≤ 13)

/-- The function `isdigit` of the C library. -/
def isdigit (ch : Char) : Bool :=
  48 ≤ ch.toNat && ch.toNat ≤ 57

/-- Leading decimal digits of `cs`: the number they denote on top of `acc`,
how many there were on top of `n`, and the characters after them. -/
def scanDigits : List Char → Nat → Nat → Nat × Nat × List Char
  | [], acc, n => (acc, n, [])
  | ch :: rest, acc, n =>
    if isdigit ch then scanDigits rest (10 * acc + (ch.toNat - 48)) (n + 1)
    else (acc, n, ch :: rest)

/-- An optional sign: whether it was `-`, and the characters after it. -/
def scanSign : List Char → Bool × List Char
  | [] => (false, [])
  | ch :: rest =>
    if ch.toNat = 45 then (true, rest)
    else if ch.toNat = 43 then (false, rest)
    else (false, ch :: rest)

/-- An optional exponent part `e` or `E`, sign, digits; `0` when absent or
without digits. -/
def scanExponent : List Char → Int
  | [] => 0
  | ch :: rest =>
    if ch.toNat = 101 || ch.toNat = 69 then
      let (neg, ds) := scanSign rest
      let (v, n, _) := scanDigits ds 0 0
      if n = 0 then 0 else if neg then -(v : Int) else (v : Int)
    else 0

/-- The number `q` times ten to the power `e`. -/
def scalePow10 (q : ℚ) (e : Int) : ℚ :=
  if 0 ≤ e then q * 10 ^ e.toNat else q / 10 ^ (-e).toNat

/-- An unsigned decimal floating constant at the start of `cs`: digits, an
optional point with digits, an optional exponent.  `none` when there is no
digit. -/
def scanDecimal (cs : List Char) : Option ℚ :=
  let (ip, n1, r1) := scanDigits cs 0 0
  let (fp, n2, r2) :=
    match r1 with
    | [] => (0, 0, [])
    | ch :: rest => if ch.toNat = 46 then scanDigits rest 0 0 else (0, 0, ch :: rest)
  if n1 + n2 = 0 then none
  else some (scalePow10 ((ip : ℚ) + (fp : ℚ) / 10 ^ n2) (scanExponent r2))

/-- The exact value of the decimal floating constant that `s` starts with,
after leading white space and an optional sign; `none` when `s` does not start
with one. -/
def strtodDecimal (s : String) : Option ℚ :=
  let (neg, cs) := scanSign (s.toList.dropWhile isspace)
  match scanDecimal cs with
  | none => none
  | some q => some (if neg then -q else q)

/-- A stand-in for the C library function `atof` in the worked examples: the
exact value of the decimal constant the text starts with, and zero for text
that starts with none.  The library function returns the double nearest to
that value, and also reads hexadecimal constants, `inf` and `nan`, which this
stand-in does not.  It is used at concrete parameter strings only; the
program itself is modelled for an arbitrary conversion function. -/
def atofDecimal (s : String) : Vel :=
  (strtodDecimal s).getD 0

/-- The function `tolower` of the C library on a letter, as a character code. -/
def tolower (ch : Char) : Nat :=
  if 65 ≤ ch.toNat && ch.toNat ≤ 90 then ch.toNat + 32 else ch.toNat

/-- Whether the characters `cs` start with the word `w`, given in lower-case
character codes, ignoring case. -/
def startsWord : List Nat → List Char → Bool
  | [], _ => true
  | _ :: _, [] => false
  | w :: ws, ch :: cs => tolower ch = w && startsWord ws cs

/-- Whether `cs`, what follows white space and sign, starts a subject sequence
of `strtod` (C standard, 7.22.1.3): a digit (decimal or hexadecimal constants
both start with one), a point followed by a digit, or `inf` or `nan` in any
case. -/
def startsNumber : List Char → Bool
  | [] => false
  | ch :: rest =>
    if isdigit ch then true
    else if ch.toNat = 46 then
      match rest with
      | [] => false
      | d :: _ => isdigit d
    else startsWord [105, 110, 102] (ch :: rest) || startsWord [110, 97, 110] (ch :: rest)

/-- Whether the C library can perform a conversion on the text `s`: after
leading white space and an optional sign there is the start of a number.
When it cannot, `atof` returns zero. -/
def atofConverts (s : String) : Bool :=
  startsNumber (scanSign (s.toList.dropWhile isspace)).2

/-- The parameter selection of `main`.  `atof` is the conversion function of
the C library, `argv` is the argument vector after `ros::init`, program name
first, and `argc` is its length. -/
def selectVel (atof : String → Vel) (argv : List String) : Vel × Vel :=
  let argc := argv.length
  if argc = 3 then
    (atof (argv.getD 1 ""), atof (argv.getD 2 ""))
  else
    (1.0, 0.5)

/-- A run of the program: the reader, the `TeleopControl` object and the
terminal configuration at the end, and the effects in order. -/
structure ProgramRun where
  input : KeyboardReader
  teleop_control : TeleopControl
  term : Termios
  effects : List Effect
deriving DecidableEq, Repr

/-- The program, linked against the conversion function `atof`: the global
`KeyboardReader input` is constructed on the terminal configuration `term0`,
then `main` selects the velocities, builds the `TeleopControl`, runs
`keyLoop` and, when that returns, calls `quit(0)`.  When the keyboard script
is used up first, the run ends blocked in `read`. -/
def main (atof : String → Vel) (argv : List String) (term0 : Termios) (c0 : Int)
    (reads : List ReadOutcome) : ProgramRun :=
  let (input, term1) := KeyboardReader.create term0
  let (linear_vel_, angular_vel_) := selectVel atof argv
  let teleop_control := TeleopControl.create linear_vel_ angular_vel_
  let run := keyLoop input teleop_control c0 reads
  if run.returned then
    let (input2, term2, eff) := quit run.input term1 0
    { input := input2, teleop_control := run.vars.ctl, term := term2,
      effects := run.effects ++ eff }
  else
    { input := run.input, teleop_control := run.vars.ctl, term := term1,
      effects := run.effects }

/-- The call `teleop_control.keyLoop()` as `main` makes it. -/
def mainLoop (atof : String → Vel) (argv : List String) (term0 : Termios) (c0 : Int)
    (reads : List ReadOutcome) : LoopRun :=
  keyLoop (KeyboardReader.create term0).1
    (TeleopControl.create (selectVel atof argv).1 (selectVel atof argv).2) c0 reads

/-! ## Vocabulary of the specification -/

/-- An effect of the loop is a publication or the `perror` report. -/
def Effect.isLoopEffect : Effect → Bool
  | Effect.publish _ => true
  | Effect.perror => true
  | _ => false

/-- The arrow key codes. -/
def isArrowKey (k : Int) : Bool :=
  k = KEYCODE_UP || k = KEYCODE_DOWN || k = KEYCODE_LEFT || k = KEYCODE_RIGHT

/-- The mapping table of the specification (KeyMapper): the command of an
arrow key for the given maxima, and nothing for any other key. -/
def specKeyMapper (maxLinear maxAngular : Vel) (k : Int) : Option Twist :=
  if k = 0x41 then some { linear_x := maxLinear, angular_z := 0 }
  else if k = 0x42 then some { linear_x := -maxLinear, angular_z := 0 }
  else if k = 0x44 then some { linear_x := 0, angular_z := maxAngular }
  else if k = 0x43 then some { linear_x := 0, angular_z := -maxAngular }
  else none

/-- The keys of a sequence that come before its first quit key. -/
def beforeQuit (keys : List Int) : List Int :=
  keys.takeWhile (fun k => decide (k ≠ KEYCODE_Q))

/-- The keys of a sequence that come after its first quit key. -/
def afterQuit (keys : List Int) : List Int :=
  (keys.dropWhile (fun k => decide (k ≠ KEYCODE_Q))).drop 1

/-- Exactly one of the two components of a command is non-zero. -/
def exactlyOneNonZero (t : Twist) : Prop :=
  (t.linear_x ≠ 0 ∧ t.angular_z = 0) ∨ (t.linear_x = 0 ∧ t.angular_z ≠ 0)

/-- A terminal configuration used in the examples. -/
def cookedExample : Termios :=
  { c_iflag := 0x4500, c_oflag := 0x5, c_cflag := 0xBF, c_lflag := 0x8A3B, c_line := 0,
    c_cc := [3, 28, 127, 21, 4, 0, 1, 0, 17, 19, 26, 0, 18, 15, 23, 22, 0, 0, 0, 0, 0, 0,
      0, 0, 0, 0, 0, 0, 0, 0, 0, 0],
    c_ispeed := 15, c_ospeed := 15 }

/-- The reader constructed on `cookedExample`. -/
def inputExample : KeyboardReader :=
  (KeyboardReader.create cookedExample).1


/-! ## The iteration, case by case -/

theorem keyIter_failure (input : KeyboardReader) (v : LoopVars) :
    keyIter input v ReadOutcome.failure =
      { input := input, vars := v, effects := [Effect.perror], flow := Flow.returned } := by
  rfl

theorem keyIter_up (input : KeyboardReader) (v : LoopVars) :
    keyIter input v (ReadOutcome.key KEYCODE_UP) =
      { input := input
        vars := { ctl := { v.ctl with linear_vel_set := v.ctl.linear_vel_max,
                                      angular_vel_set := 0 },
                  c := KEYCODE_UP, dirty := false }
        effects := [Effect.publish { linear_x := v.ctl.linear_vel_max, angular_z := 0 }]
        flow := Flow.again } := by
  rfl

theorem keyIter_down (input : KeyboardReader) (v : LoopVars) :
    keyIter input v (ReadOutcome.key KEYCODE_DOWN) =
      { input := input
        vars := { ctl := { v.ctl with linear_vel_set := -v.ctl.linear_vel_max,
                                      angular_vel_set := 0 },
                  c := KEYCODE_DOWN, dirty := false }
        effects := [Effect.publish { linear_x := -v.ctl.linear_vel_max, angular_z := 0 }]
        flow := Flow.again } := by
  rfl

theorem keyIter_left (input : KeyboardReader) (v : LoopVars) :
    keyIter input v (ReadOutcome.key KEYCODE_LEFT) =
      { input := input
        vars := { ctl := { v.ctl with linear_vel_set := 0,
                                      angular_vel_set := v.ctl.angular_vel_max },
                  c := KEYCODE_LEFT, dirty := false }
        effects := [Effect.publish { linear_x := 0, angular_z := v.ctl.angular_vel_max }]
        flow := Flow.again } := by
  rfl

theorem keyIter_right (input : KeyboardReader) (v : LoopVars) :
    keyIter input v (ReadOutcome.key KEYCODE_RIGHT) =
      { input := input
        vars := { ctl := { v.ctl with linear_vel_set := 0,
                                      angular_vel_set := -v.ctl.angular_vel_max },
                  c := KEYCODE_RIGHT, dirty := false }
        effects := [Effect.publish { linear_x := 0, angular_z := -v.ctl.angular_vel_max }]
        flow := Flow.again } := by
  rfl

theorem keyIter_quit (input : KeyboardReader) (v : LoopVars) :
    keyIter input v (ReadOutcome.key KEYCODE_Q) =
      { input := input
        vars := { v with ctl := { v.ctl with linear_vel_set := 0, angular_vel_set := 0 },
                         c := KEYCODE_Q }
        effects := []
        flow := Flow.returned } := by
  rfl

theorem keySwitch_other (ctl : TeleopControl) (c : Int) (dirty : Bool)
    (hl : c ≠ KEYCODE_LEFT) (hr : c ≠ KEYCODE_RIGHT) (hu : c ≠ KEYCODE_UP)
    (hd : c ≠ KEYCODE_DOWN) (hq : c ≠ KEYCODE_Q) :
    keySwitch ctl c dirty = some (ctl, dirty) := by
  simp [keySwitch, hl, hr, hu, hd, hq]

theorem keyIter_other (input : KeyboardReader) (v : LoopVars) (c : Int)
    (hl : c ≠ KEYCODE_LEFT) (hr : c ≠ KEYCODE_RIGHT) (hu : c ≠ KEYCODE_UP)
    (hd : c ≠ KEYCODE_DOWN) (hq : c ≠ KEYCODE_Q) (hdirty : v.dirty = false) :
    keyIter input v (ReadOutcome.key c) =
      { input := input
        vars := { ctl := { v.ctl with linear_vel_set := 0, angular_vel_set := 0 },
                  c := c, dirty := false }
        effects := []
        flow := Flow.again } := by
  simp [keyIter, KeyboardReader.readOne, ReadOutcome.rc, ReadOutcome.store,
    keySwitch_other _ c _ hl hr hu hd hq, hdirty]

/-! ## What every iteration preserves -/

theorem keyIter_of_rc (input : KeyboardReader) (v : LoopVars) (r : ReadOutcome)
    (h : ¬ r.rc < 0) :
    keyIter input v r =
      match keySwitch { v.ctl with linear_vel_set := 0, angular_vel_set := 0 }
          (r.store v.c) v.dirty with
      | none =>
        { input := input
          vars := { v with ctl := { v.ctl with linear_vel_set := 0, angular_vel_set := 0 },
                           c := r.store v.c }
          effects := [], flow := Flow.returned }
      | some (ctl1, dirty1) =>
        if dirty1 = true then
          { input := input, vars := { ctl := ctl1, c := r.store v.c, dirty := false },
            effects := [Effect.publish
              { angular_z := ctl1.angular_vel_set, linear_x := ctl1.linear_vel_set }],
            flow := Flow.again }
        else
          { input := input, vars := { ctl := ctl1, c := r.store v.c, dirty := dirty1 },
            effects := [], flow := Flow.again } := by
  simp only [keyIter, KeyboardReader.readOne, if_neg h]

theorem keySwitch_max (ctl ctl1 : TeleopControl) (c : Int) (dirty dirty1 : Bool)
    (h : keySwitch ctl c dirty = some (ctl1, dirty1)) :
    ctl1.linear_vel_max = ctl.linear_vel_max ∧
      ctl1.angular_vel_max = ctl.angular_vel_max := by
  unfold keySwitch at h
  split_ifs at h <;> simp at h <;> obtain ⟨e1, _⟩ := h <;> subst e1 <;> exact ⟨rfl, rfl⟩

theorem keyIter_input (input : KeyboardReader) (v : LoopVars) (r : ReadOutcome) :
    (keyIter input v r).input = input := by
  by_cases h : r.rc < 0
  · simp only [keyIter, KeyboardReader.readOne, if_pos h]
  · rw [keyIter_of_rc input v r h]
    split
    · rfl
    · split <;> rfl

theorem keyIter_max (input : KeyboardReader) (v : LoopVars) (r : ReadOutcome) :
    (keyIter input v r).vars.ctl.linear_vel_max = v.ctl.linear_vel_max ∧
      (keyIter input v r).vars.ctl.angular_vel_max = v.ctl.angular_vel_max := by
  by_cases h : r.rc < 0
  · simp only [keyIter, KeyboardReader.readOne, if_pos h, and_self]
  · rw [keyIter_of_rc input v r h]
    split
    · exact ⟨rfl, rfl⟩
    · rename_i ctl1 dirty1 hs
      have hm := keySwitch_max _ _ _ _ _ hs
      split <;> exact hm

theorem keyIter_dirty (input : KeyboardReader) (v : LoopVars) (r : ReadOutcome)
    (hdirty : v.dirty = false) : (keyIter input v r).vars.dirty = false := by
  by_cases h : r.rc < 0
  · simp only [keyIter, KeyboardReader.readOne, if_pos h, hdirty]
  · rw [keyIter_of_rc input v r h]
    split
    · exact hdirty
    · split
      · rfl
      · rename_i hne
        simpa using hne

/-! ## The loop -/

theorem loopFrom_nil (input : KeyboardReader) (v : LoopVars) :
    loopFrom input v [] =
      { input := input, vars := v, effects := [], unread := [], returned := false } := by
  rfl

theorem loopFrom_cons_returned (input : KeyboardReader) (v : LoopVars) (r : ReadOutcome)
    (rest : List ReadOutcome) (h : (keyIter input v r).flow = Flow.returned) :
    loopFrom input v (r :: rest) =
      { input := (keyIter input v r).input, vars := (keyIter input v r).vars,
        effects := (keyIter input v r).effects, unread := rest, returned := true } := by
  simp only [loopFrom, h]

theorem loopFrom_cons_again (input : KeyboardReader) (v : LoopVars) (r : ReadOutcome)
    (rest : List ReadOutcome) (h : (keyIter input v r).flow = Flow.again) :
    loopFrom input v (r :: rest) =
      { loopFrom (keyIter input v r).input (keyIter input v r).vars rest with
        effects := (keyIter input v r).effects ++
          (loopFrom (keyIter input v r).input (keyIter input v r).vars rest).effects } := by
  simp only [loopFrom, h]

theorem flow_cases (f : Flow) : f = Flow.returned ∨ f = Flow.again := by
  cases f
  · exact Or.inl rfl
  · exact Or.inr rfl

theorem loopFrom_input (input : KeyboardReader) (v : LoopVars) (reads : List ReadOutcome) :
    (loopFrom input v reads).input = input := by
  induction reads generalizing input v with
  | nil => rfl
  | cons r rest ih =>
    rcases flow_cases (keyIter input v r).flow with h | h
    · rw [loopFrom_cons_returned input v r rest h]
      exact keyIter_input input v r
    · rw [loopFrom_cons_again input v r rest h]
      exact (ih _ _).trans (keyIter_input input v r)

theorem loopFrom_max (input : KeyboardReader) (v : LoopVars) (reads : List ReadOutcome) :
    (loopFrom input v reads).vars.ctl.linear_vel_max = v.ctl.linear_vel_max ∧
      (loopFrom input v reads).vars.ctl.angular_vel_max = v.ctl.angular_vel_max := by
  induction reads generalizing input v with
  | nil => exact ⟨rfl, rfl⟩
  | cons r rest ih =>
    have hk := keyIter_max input v r
    rcases flow_cases (keyIter input v r).flow with h | h
    · rw [loopFrom_cons_returned input v r rest h]
      exact hk
    · rw [loopFrom_cons_again input v r rest h]
      have hi := ih (keyIter input v r).input (keyIter input v r).vars
      exact ⟨hi.1.trans hk.1, hi.2.trans hk.2⟩

theorem loopFrom_dirty (input : KeyboardReader) (v : LoopVars) (reads : List ReadOutcome)
    (hdirty : v.dirty = false) : (loopFrom input v reads).vars.dirty = false := by
  induction reads generalizing input v with
  | nil => exact hdirty
  | cons r rest ih =>
    have hk := keyIter_dirty input v r hdirty
    rcases flow_cases (keyIter input v r).flow with h | h
    · rw [loopFrom_cons_returned input v r rest h]
      exact hk
    · rw [loopFrom_cons_again input v r rest h]
      exact ih _ _ hk

/-- Running the loop on `xs ++ ys`, when it is still going after `xs`, is
running it on `xs` and then on `ys` from the variables reached. -/
theorem loopFrom_append (input : KeyboardReader) (v : LoopVars) (xs ys : List ReadOutcome)
    (hb : (loopFrom input v xs).returned = false) :
    loopFrom input v (xs ++ ys) =
      { loopFrom (loopFrom input v xs).input (loopFrom input v xs).vars ys with
        effects := (loopFrom input v xs).effects ++
          (loopFrom (loopFrom input v xs).input (loopFrom input v xs).vars ys).effects } := by
  induction xs generalizing input v with
  | nil => simp [loopFrom_nil]
  | cons r rest ih =>
    rcases flow_cases (keyIter input v r).flow with h | h
    · rw [loopFrom_cons_returned input v r rest h] at hb
      simp at hb
    · rw [loopFrom_cons_again input v r rest h] at hb
      rw [List.cons_append, loopFrom_cons_again input v r (rest ++ ys) h,
        loopFrom_cons_again input v r rest h, ih _ _ hb]
      simp [List.append_assoc]

theorem keyIter_effects (input : KeyboardReader) (v : LoopVars) (r : ReadOutcome) :
    ∀ e ∈ (keyIter input v r).effects, e.isLoopEffect = true := by
  by_cases h : r.rc < 0
  · simp [keyIter, KeyboardReader.readOne, if_pos h, Effect.isLoopEffect]
  · rw [keyIter_of_rc input v r h]
    split
    · simp
    · split <;> simp [Effect.isLoopEffect]

theorem loopFrom_effects (input : KeyboardReader) (v : LoopVars) (reads : List ReadOutcome) :
    ∀ e ∈ (loopFrom input v reads).effects, e.isLoopEffect = true := by
  induction reads generalizing input v with
  | nil => simp [loopFrom_nil]
  | cons r rest ih =>
    have hk := keyIter_effects input v r
    rcases flow_cases (keyIter input v r).flow with h | h
    · rw [loopFrom_cons_returned input v r rest h]
      exact hk
    · rw [loopFrom_cons_again input v r rest h]
      intro e he
      rcases List.mem_append.mp he with he | he
      · exact hk e he
      · exact ih _ _ e he

/-! ## Parameter selection and `main` -/

theorem selectVel_default (atof : String → Vel) (argv : List String) (h : argv.length ≠ 3) :
    selectVel atof argv = (1, 1 / 2) := by
  simp only [selectVel, if_neg h]
  norm_num

theorem selectVel_two (atof : String → Vel) (prog a b : String) :
    selectVel atof [prog, a, b] = (atof a, atof b) := by
  simp [selectVel]

theorem main_blocked (atof : String → Vel) (argv : List String) (term0 : Termios) (c0 : Int)
    (reads : List ReadOutcome) (h : (mainLoop atof argv term0 c0 reads).returned = false) :
    main atof argv term0 c0 reads =
      { input := (mainLoop atof argv term0 c0 reads).input
        teleop_control := (mainLoop atof argv term0 c0 reads).vars.ctl
        term := rawOf term0
        effects := (mainLoop atof argv term0 c0 reads).effects } := by
  simp only [mainLoop, KeyboardReader.create] at h
  simp [main, mainLoop, KeyboardReader.create, h, quit, KeyboardReader.shutdown]

theorem main_returned (atof : String → Vel) (argv : List String) (term0 : Termios) (c0 : Int)
    (reads : List ReadOutcome) (h : (mainLoop atof argv term0 c0 reads).returned = true) :
    main atof argv term0 c0 reads =
      { input := (mainLoop atof argv term0 c0 reads).input
        teleop_control := (mainLoop atof argv term0 c0 reads).vars.ctl
        term := (mainLoop atof argv term0 c0 reads).input.cooked
        effects := (mainLoop atof argv term0 c0 reads).effects ++
          [Effect.inputShutdown, Effect.rosShutdown, Effect.exit 0] } := by
  simp only [mainLoop, KeyboardReader.create] at h
  simp [main, mainLoop, KeyboardReader.create, h, quit, KeyboardReader.shutdown]

theorem atofDecimal_example_03 : atofDecimal "0.3" = 3 / 10 := by
  simp [atofDecimal, strtodDecimal, scanSign, scanDecimal, scanDigits, scanExponent,
    isspace, isdigit, scalePow10]

/-! ## Iterations that read a key, with `dirty` clear -/

theorem keyIter_key_effects (input : KeyboardReader) (v : LoopVars) (k : Int)
    (hdirty : v.dirty = false) :
    (keyIter input v (ReadOutcome.key k)).effects =
      (specKeyMapper v.ctl.linear_vel_max v.ctl.angular_vel_max k).toList.map
        Effect.publish := by
  by_cases hl : k = KEYCODE_LEFT
  · subst hl; rw [keyIter_left]; rfl
  by_cases hr : k = KEYCODE_RIGHT
  · subst hr; rw [keyIter_right]; rfl
  by_cases hu : k = KEYCODE_UP
  · subst hu; rw [keyIter_up]; rfl
  by_cases hd : k = KEYCODE_DOWN
  · subst hd; rw [keyIter_down]; rfl
  by_cases hq : k = KEYCODE_Q
  · subst hq; rw [keyIter_quit]; rfl
  rw [keyIter_other input v k hl hr hu hd hq hdirty]
  simp only [KEYCODE_LEFT, KEYCODE_RIGHT, KEYCODE_UP, KEYCODE_DOWN] at hl hr hu hd
  simp [specKeyMapper, hl, hr, hu, hd]

theorem keyIter_key_flow (input : KeyboardReader) (v : LoopVars) (k : Int)
    (hdirty : v.dirty = false) :
    (keyIter input v (ReadOutcome.key k)).flow =
      if k = KEYCODE_Q then Flow.returned else Flow.again := by
  by_cases hl : k = KEYCODE_LEFT
  · subst hl; rw [keyIter_left]; rfl
  by_cases hr : k = KEYCODE_RIGHT
  · subst hr; rw [keyIter_right]; rfl
  by_cases hu : k = KEYCODE_UP
  · subst hu; rw [keyIter_up]; rfl
  by_cases hd : k = KEYCODE_DOWN
  · subst hd; rw [keyIter_down]; rfl
  by_cases hq : k = KEYCODE_Q
  · subst hq; rw [keyIter_quit]; rfl
  rw [keyIter_other input v k hl hr hu hd hq hdirty, if_neg hq]

/-- With `dirty` clear at the start, whatever is read, a command published by
the iteration is one of the four arrow commands for the maxima. -/
theorem keyIter_published (input : KeyboardReader) (v : LoopVars) (r : ReadOutcome)
    (hdirty : v.dirty = false) (t : Twist)
    (ht : Effect.publish t ∈ (keyIter input v r).effects) :
    t = { linear_x := v.ctl.linear_vel_max, angular_z := 0 } ∨
    t = { linear_x := -v.ctl.linear_vel_max, angular_z := 0 } ∨
    t = { linear_x := 0, angular_z := v.ctl.angular_vel_max } ∨
    t = { linear_x := 0, angular_z := -v.ctl.angular_vel_max } := by
  have hkey : ∀ k : Int, Effect.publish t ∈ (keyIter input v (ReadOutcome.key k)).effects →
      t = { linear_x := v.ctl.linear_vel_max, angular_z := 0 } ∨
      t = { linear_x := -v.ctl.linear_vel_max, angular_z := 0 } ∨
      t = { linear_x := 0, angular_z := v.ctl.angular_vel_max } ∨
      t = { linear_x := 0, angular_z := -v.ctl.angular_vel_max } := by
    intro k hk
    rw [keyIter_key_effects input v k hdirty] at hk
    unfold specKeyMapper at hk
    split_ifs at hk <;> simp at hk <;> simp [hk]
  cases r with
  | failure => simp [keyIter_failure] at ht
  | endOfInput => exact hkey v.c ht
  | key k => exact hkey k ht

theorem mem_publishedOf (t : Twist) (es : List Effect) :
    t ∈ publishedOf es ↔ Effect.publish t ∈ es := by
  induction es with
  | nil => simp [publishedOf]
  | cons e rest ih => cases e <;> simp [publishedOf, ih]

theorem loopFrom_published (input : KeyboardReader) (v : LoopVars) (reads : List ReadOutcome)
    (hdirty : v.dirty = false) (t : Twist)
    (ht : t ∈ publishedOf (loopFrom input v reads).effects) :
    t = { linear_x := v.ctl.linear_vel_max, angular_z := 0 } ∨
    t = { linear_x := -v.ctl.linear_vel_max, angular_z := 0 } ∨
    t = { linear_x := 0, angular_z := v.ctl.angular_vel_max } ∨
    t = { linear_x := 0, angular_z := -v.ctl.angular_vel_max } := by
  rw [mem_publishedOf] at ht
  induction reads generalizing input v with
  | nil => simp [loopFrom_nil] at ht
  | cons r rest ih =>
    have hk := keyIter_published input v r hdirty t
    rcases flow_cases (keyIter input v r).flow with h | h
    · rw [loopFrom_cons_returned input v r rest h] at ht
      exact hk ht
    · rw [loopFrom_cons_again input v r rest h] at ht
      rcases List.mem_append.mp ht with ht | ht
      · exact hk ht
      · have hi := ih _ _ (keyIter_dirty input v r hdirty) ht
        rw [(keyIter_max input v r).1, (keyIter_max input v r).2] at hi
        exact hi

/-- The loop on a sequence of delivered keys, from variables with `dirty`
clear: the effects are the arrow commands of the keys before the first quit
key, the keys after it stay unread, and the loop has returned exactly when
there is a quit key. -/
theorem loopFrom_keys (input : KeyboardReader) (v : LoopVars) (keys : List Int)
    (hdirty : v.dirty = false) :
    (loopFrom input v (keys.map ReadOutcome.key)).effects =
      ((beforeQuit keys).filterMap
        (specKeyMapper v.ctl.linear_vel_max v.ctl.angular_vel_max)).map Effect.publish ∧
    (loopFrom input v (keys.map ReadOutcome.key)).unread =
      (afterQuit keys).map ReadOutcome.key ∧
    (loopFrom input v (keys.map ReadOutcome.key)).returned = decide (KEYCODE_Q ∈ keys) := by
  induction keys generalizing input v with
  | nil => simp [loopFrom_nil, beforeQuit, afterQuit]
  | cons k rest ih =>
    have he := keyIter_key_effects input v k hdirty
    have hf := keyIter_key_flow input v k hdirty
    by_cases hq : k = KEYCODE_Q
    · rw [if_pos hq] at hf
      rw [List.map_cons, loopFrom_cons_returned input v _ _ hf, he]
      subst hq
      simp [beforeQuit, afterQuit, specKeyMapper, KEYCODE_Q]
    · rw [if_neg hq] at hf
      rw [List.map_cons, loopFrom_cons_again input v _ _ hf, he]
      obtain ⟨h1, h2, h3⟩ := ih (keyIter input v (ReadOutcome.key k)).input
        (keyIter input v (ReadOutcome.key k)).vars (keyIter_dirty input v _ hdirty)
      rw [(keyIter_max input v _).1, (keyIter_max input v _).2] at h1
      refine ⟨?_, ?_, ?_⟩
      · simp only [h1, beforeQuit, List.takeWhile_cons, hq, ne_eq, not_false_eq_true,
          decide_True, if_true, List.filterMap_cons]
        cases specKeyMapper v.ctl.linear_vel_max v.ctl.angular_vel_max k <;> simp
      · simp only [h2, afterQuit, List.dropWhile_cons, hq, ne_eq, not_false_eq_true,
          decide_True, if_true]
      · simp only [h3, List.mem_cons, Ne.symm hq, false_or]

theorem specKeyMapper_isSome (a b : Vel) (k : Int) :
    (specKeyMapper a b k).isSome = isArrowKey k := by
  unfold specKeyMapper isArrowKey KEYCODE_UP KEYCODE_DOWN KEYCODE_LEFT KEYCODE_RIGHT
  split_ifs <;> simp_all

theorem beforeQuit_of_arrows (keys : List Int) (harrow : ∀ k ∈ keys, isArrowKey k = true) :
    beforeQuit keys = keys := by
  unfold beforeQuit
  rw [List.takeWhile_eq_self_iff]
  intro k hk
  have h := harrow k hk
  simp only [isArrowKey, KEYCODE_UP, KEYCODE_DOWN, KEYCODE_LEFT, KEYCODE_RIGHT,
    Bool.or_eq_true, decide_eq_true_eq] at h
  simp only [KEYCODE_Q, ne_eq, decide_eq_true_eq]
  omega

theorem filterMap_length_of_isSome {α β : Type} (f : α → Option β) (xs : List α)
    (h : ∀ x ∈ xs, (f x).isSome = true) : (xs.filterMap f).length = xs.length := by
  induction xs with
  | nil => rfl
  | cons x rest ih =>
    have hx := h x (List.mem_cons_self x rest)
    obtain ⟨y, hy⟩ := Option.isSome_iff_exists.mp hx
    rw [List.filterMap_cons, hy]
    simp [ih (fun z hz => h z (List.mem_cons_of_mem x hz))]

theorem publishedOf_map_publish (ts : List Twist) :
    publishedOf (ts.map Effect.publish) = ts := by
  induction ts with
  | nil => rfl
  | cons t rest ih => simp [publishedOf, ih]

/-- The maxima of the `TeleopControl` object of a run are the selected ones. -/
theorem main_teleop_control_max (atof : String → Vel) (argv : List String)
    (term0 : Termios) (c0 : Int) (reads : List ReadOutcome) :
    (main atof argv term0 c0 reads).teleop_control.linear_vel_max = (selectVel atof argv).1 ∧
    (main atof argv term0 c0 reads).teleop_control.angular_vel_max = (selectVel atof argv).2 := by
  have hm := loopFrom_max (KeyboardReader.create term0).1
    { ctl := TeleopControl.create (selectVel atof argv).1 (selectVel atof argv).2, c := c0,
      dirty := false } reads
  cases hret : (mainLoop atof argv term0 c0 reads).returned
  · rw [main_blocked atof argv term0 c0 reads hret]
    exact hm
  · rw [main_returned atof argv term0 c0 reads hret]
    exact hm

theorem filterMap_length_eq_filter {α β : Type} (f : α → Option β) (xs : List α) :
    (xs.filterMap f).length = (xs.filter (fun x => (f x).isSome)).length := by
  induction xs with
  | nil => rfl
  | cons x rest ih =>
    rw [List.filterMap_cons, List.filter_cons]
    cases hx : f x <;> simp [ih]

/-! ## The stand-in conversion at the parameter strings of the examples -/

theorem atofDecimal_example_abc : atofDecimal "abc" = 0 := by
  simp [atofDecimal, strtodDecimal, scanSign, scanDecimal, scanDigits, isspace, isdigit]

theorem atofDecimal_example_neg : atofDecimal "-0.5" = -(1 / 2) := by
  simp [atofDecimal, strtodDecimal, scanSign, scanDecimal, scanDigits, scanExponent,
    isspace, isdigit, scalePow10]
  norm_num

theorem atofDecimal_example_exp : atofDecimal "2.5e1" = 25 := by
  simp [atofDecimal, strtodDecimal, scanSign, scanDecimal, scanDigits, scanExponent,
    isspace, isdigit, scalePow10]
  norm_num

theorem atofDecimal_example_negexp : atofDecimal " +7.5E-1" = 3 / 4 := by
  simp [atofDecimal, strtodDecimal, scanSign, scanDecimal, scanDigits, scanExponent,
    isspace, isdigit, scalePow10]
  norm_num

theorem scanDecimal_of_not_startsNumber (cs : List Char) (h : startsNumber cs = false) :
    scanDecimal cs = none := by
  cases cs with
  | nil => simp [scanDecimal, scanDigits]
  | cons ch rest =>
    unfold startsNumber at h
    by_cases hd : isdigit ch = true
    · simp [hd] at h
    · by_cases hp : ch.toNat = 46
      · cases rest with
        | nil => simp [scanDecimal, scanDigits, hd, hp]
        | cons d more =>
          have hd2 : isdigit d = false := by simpa [hd, hp] using h
          simp [scanDecimal, scanDigits, hd, hp, hd2]
      · simp [scanDecimal, scanDigits, hd, hp]

/-- The stand-in returns zero wherever the C library performs no conversion. -/
theorem atofDecimal_of_not_converts (s : String) (h : atofConverts s = false) :
    atofDecimal s = 0 := by
  unfold atofConverts at h
  have hs := scanDecimal_of_not_startsNumber _ h
  simp only [atofDecimal, strtodDecimal]
  rw [hs]
  rfl

/-! ## Claims -/

/-- C1.  From any variables left by earlier iterations, and for any maxima,
one iteration of `keyLoop` that reads an arrow key goes round again and has
exactly one effect, the publication of: Up, `(+max linear, 0)`; Down,
`(-max linear, 0)`; Left, `(0, +max angular)`; Right, `(0, -max angular)`.
Started without parameters (maxima `1.0`, `0.5`), Up then Down publishes
`(1, 0)` then `(-1, 0)`; started with `0.2 0.3`, Left publishes `(0, 0.3)`. -/
theorem keyLoop_arrow_key_publishes (input : KeyboardReader) (v : LoopVars)
    (atof : String → Vel) (term0 : Termios) (c0 : Int) :
    (KEYCODE_UP = 0x41 ∧ KEYCODE_DOWN = 0x42 ∧ KEYCODE_LEFT = 0x44 ∧ KEYCODE_RIGHT = 0x43) ∧
    ((keyIter input v (ReadOutcome.key KEYCODE_UP)).effects =
        [Effect.publish { linear_x := v.ctl.linear_vel_max, angular_z := 0 }] ∧
      (keyIter input v (ReadOutcome.key KEYCODE_UP)).flow = Flow.again) ∧
    ((keyIter input v (ReadOutcome.key KEYCODE_DOWN)).effects =
        [Effect.publish { linear_x := -v.ctl.linear_vel_max, angular_z := 0 }] ∧
      (keyIter input v (ReadOutcome.key KEYCODE_DOWN)).flow = Flow.again) ∧
    ((keyIter input v (ReadOutcome.key KEYCODE_LEFT)).effects =
        [Effect.publish { linear_x := 0, angular_z := v.ctl.angular_vel_max }] ∧
      (keyIter input v (ReadOutcome.key KEYCODE_LEFT)).flow = Flow.again) ∧
    ((keyIter input v (ReadOutcome.key KEYCODE_RIGHT)).effects =
        [Effect.publish { linear_x := 0, angular_z := -v.ctl.angular_vel_max }] ∧
      (keyIter input v (ReadOutcome.key KEYCODE_RIGHT)).flow = Flow.again) ∧
    (main atof ["teleop_control"] term0 c0
        [ReadOutcome.key KEYCODE_UP, ReadOutcome.key KEYCODE_DOWN]).effects =
      [Effect.publish { linear_x := 1, angular_z := 0 },
       Effect.publish { linear_x := -1, angular_z := 0 }] ∧
    (main atofDecimal ["teleop_control", "0.2", "0.3"] term0 c0
        [ReadOutcome.key KEYCODE_LEFT]).effects =
      [Effect.publish { linear_x := 0, angular_z := 3 / 10 }] := by
  refine ⟨⟨rfl, rfl, rfl, rfl⟩, ⟨?_, ?_⟩, ⟨?_, ?_⟩, ⟨?_, ?_⟩, ⟨?_, ?_⟩, ?_, ?_⟩
  · exact congrArg IterResult.effects (keyIter_up input v)
  · exact congrArg IterResult.flow (keyIter_up input v)
  · exact congrArg IterResult.effects (keyIter_down input v)
  · exact congrArg IterResult.flow (keyIter_down input v)
  · exact congrArg IterResult.effects (keyIter_left input v)
  · exact congrArg IterResult.flow (keyIter_left input v)
  · exact congrArg IterResult.effects (keyIter_right input v)
  · exact congrArg IterResult.flow (keyIter_right input v)
  · rw [main_blocked _ _ _ _ _ (by rfl)]
    simp [mainLoop, selectVel_default, keyLoop, loopFrom, keyIter_up, keyIter_down,
      TeleopControl.create]
  · rw [main_blocked _ _ _ _ _ (by rfl)]
    simp [mainLoop, selectVel_two, keyLoop, loopFrom, keyIter_left, TeleopControl.create,
      atofDecimal_example_03]

/-- C2.  After any sequence of read outcomes that leaves the loop running, the
iteration that reads a key code other than the four arrow codes and the quit
code has no effect at all (so it does not publish), leaves `dirty` as it was
at the start of the iteration and goes round again; the loop run on the longer
sequence has the same effects and is still running. -/
theorem keyLoop_unrecognized_key_noop (input : KeyboardReader) (ctl : TeleopControl)
    (c0 : Int) (before : List ReadOutcome) (k : Int)
    (hu : k ≠ 0x41) (hd : k ≠ 0x42) (hr : k ≠ 0x43) (hl : k ≠ 0x44) (hq : k ≠ 0x71)
    (hrun : (keyLoop input ctl c0 before).returned = false) :
    (keyIter (keyLoop input ctl c0 before).input (keyLoop input ctl c0 before).vars
        (ReadOutcome.key k)).effects = [] ∧
    (keyIter (keyLoop input ctl c0 before).input (keyLoop input ctl c0 before).vars
        (ReadOutcome.key k)).vars.dirty = (keyLoop input ctl c0 before).vars.dirty ∧
    (keyIter (keyLoop input ctl c0 before).input (keyLoop input ctl c0 before).vars
        (ReadOutcome.key k)).flow = Flow.again ∧
    (keyLoop input ctl c0 (before ++ [ReadOutcome.key k])).effects =
      (keyLoop input ctl c0 before).effects ∧
    (keyLoop input ctl c0 (before ++ [ReadOutcome.key k])).returned = false := by
  have hdirty : (keyLoop input ctl c0 before).vars.dirty = false :=
    loopFrom_dirty input _ before rfl
  have hit := keyIter_other (keyLoop input ctl c0 before).input
    (keyLoop input ctl c0 before).vars k hl hr hu hd hq hdirty
  refine ⟨by rw [hit], by rw [hit, hdirty], by rw [hit], ?_, ?_⟩
  · unfold keyLoop at hrun hit ⊢
    rw [loopFrom_append _ _ _ _ hrun, loopFrom_cons_again _ _ _ _ (by rw [hit]), hit]
    simp [loopFrom_nil]
  · unfold keyLoop at hrun hit ⊢
    rw [loopFrom_append _ _ _ _ hrun, loopFrom_cons_again _ _ _ _ (by rw [hit]), hit]
    simp [loopFrom_nil]

/-- Witness for C2: after Up, the space key (0x20) publishes nothing. -/
theorem keyLoop_unrecognized_key_noop_witness :
    (keyLoop inputExample (TeleopControl.create 1 (1 / 2)) 0
        ([ReadOutcome.key KEYCODE_UP] ++ [ReadOutcome.key 0x20])).effects =
      (keyLoop inputExample (TeleopControl.create 1 (1 / 2)) 0
        [ReadOutcome.key KEYCODE_UP]).effects ∧
    (keyLoop inputExample (TeleopControl.create 1 (1 / 2)) 0
        ([ReadOutcome.key KEYCODE_UP] ++ [ReadOutcome.key 0x20])).returned = false :=
  (keyLoop_unrecognized_key_noop inputExample (TeleopControl.create 1 (1 / 2)) 0
    [ReadOutcome.key KEYCODE_UP] 0x20 (by decide) (by decide) (by decide) (by decide)
    (by decide) (by rfl)).2.2.2

/-- C3, as stated, fails: with maximum linear speed `0`, the Up key publishes
the command `(0, 0)`, whose components are both zero. -/
theorem keyLoop_zero_maximum_publishes_zero :
    publishedOf (keyLoop inputExample (TeleopControl.create 0 (1 / 2)) 0
        [ReadOutcome.key KEYCODE_UP]).effects = [{ linear_x := 0, angular_z := 0 }] ∧
    ¬ exactlyOneNonZero { linear_x := 0, angular_z := 0 } := by
  constructor
  · rfl
  · simp [exactlyOneNonZero]

/-- C3, amended.  For every sequence of arrow-key presses and all maxima, the
loop publishes one command per press, and no published command has both
components non-zero; when both configured maxima are non-zero, every
published command has exactly one non-zero component. -/
theorem keyLoop_arrow_commands_one_axis (input : KeyboardReader) (ctl : TeleopControl)
    (c0 : Int) (keys : List Int) (harrow : ∀ k ∈ keys, isArrowKey k = true) :
    (publishedOf (keyLoop input ctl c0 (keys.map ReadOutcome.key)).effects).length =
      keys.length ∧
    (∀ t ∈ publishedOf (keyLoop input ctl c0 (keys.map ReadOutcome.key)).effects,
      ¬ (t.linear_x ≠ 0 ∧ t.angular_z ≠ 0)) ∧
    (ctl.linear_vel_max ≠ 0 → ctl.angular_vel_max ≠ 0 →
      ∀ t ∈ publishedOf (keyLoop input ctl c0 (keys.map ReadOutcome.key)).effects,
        exactlyOneNonZero t) := by
  refine ⟨?_, ?_, ?_⟩
  · unfold keyLoop
    rw [(loopFrom_keys input _ keys rfl).1, publishedOf_map_publish,
      beforeQuit_of_arrows keys harrow]
    apply filterMap_length_of_isSome
    intro k hk
    rw [specKeyMapper_isSome]
    exact harrow k hk
  · intro t ht
    rcases loopFrom_published input _ _ rfl t ht with h | h | h | h <;> subst h <;> simp
  · intro hlin hang t ht
    rcases loopFrom_published input _ _ rfl t ht with h | h | h | h <;> subst h <;>
      simp_all [exactlyOneNonZero]

/-- Witness for C3 amended: Up, Left, Down with maxima `1.0`, `0.5` publishes
three commands, and the first, `(1, 0)`, has exactly one non-zero component. -/
theorem keyLoop_arrow_commands_one_axis_witness :
    (publishedOf (keyLoop inputExample (TeleopControl.create 1 (1 / 2)) 0
        ([KEYCODE_UP, KEYCODE_LEFT, KEYCODE_DOWN].map ReadOutcome.key)).effects).length = 3 ∧
    exactlyOneNonZero { linear_x := 1, angular_z := 0 } :=
  ⟨(keyLoop_arrow_commands_one_axis inputExample (TeleopControl.create 1 (1 / 2)) 0
      [KEYCODE_UP, KEYCODE_LEFT, KEYCODE_DOWN] (by decide)).1,
   (keyLoop_arrow_commands_one_axis inputExample (TeleopControl.create 1 (1 / 2)) 0
      [KEYCODE_UP, KEYCODE_LEFT, KEYCODE_DOWN] (by decide)).2.2
      (by simp [TeleopControl.create]) (by simp [TeleopControl.create])
      { linear_x := 1, angular_z := 0 }
      (by
        rw [show publishedOf (keyLoop inputExample (TeleopControl.create 1 (1 / 2)) 0
            ([KEYCODE_UP, KEYCODE_LEFT, KEYCODE_DOWN].map ReadOutcome.key)).effects =
          [{ linear_x := 1, angular_z := 0 }, { linear_x := 0, angular_z := 1 / 2 },
           { linear_x := -1, angular_z := 0 }] from rfl]
        simp)⟩

/-- C4.  In every run of `main` whose key loop returns, the effects are those
of the loop, none of which is a terminal restore, a transport release or an
exit, followed by exactly: the call of `KeyboardReader::shutdown`, then
`ros::shutdown`, then `exit(0)`; the terminal restore occurs once in the whole
run.  The handler `quit` has these three effects for every signal number. -/
theorem main_shutdown_sequence (atof : String → Vel) (argv : List String)
    (term0 : Termios) (c0 : Int) (reads : List ReadOutcome)
    (hret : (mainLoop atof argv term0 c0 reads).returned = true) :
    (main atof argv term0 c0 reads).effects =
      (mainLoop atof argv term0 c0 reads).effects ++
        [Effect.inputShutdown, Effect.rosShutdown, Effect.exit 0] ∧
    (∀ e ∈ (mainLoop atof argv term0 c0 reads).effects, e.isLoopEffect = true) ∧
    (main atof argv term0 c0 reads).effects.count Effect.inputShutdown = 1 ∧
    (∀ (input : KeyboardReader) (term : Termios) (sig : Int),
      (quit input term sig).2.2 =
        [Effect.inputShutdown, Effect.rosShutdown, Effect.exit 0]) := by
  have hloop : ∀ e ∈ (mainLoop atof argv term0 c0 reads).effects, e.isLoopEffect = true :=
    loopFrom_effects _ _ reads
  refine ⟨?_, hloop, ?_, ?_⟩
  · rw [main_returned atof argv term0 c0 reads hret]
  · rw [main_returned atof argv term0 c0 reads hret]
    have hnone : (mainLoop atof argv term0 c0 reads).effects.count Effect.inputShutdown = 0 := by
      rw [List.count_eq_zero]
      intro hmem
      have := hloop _ hmem
      simp [Effect.isLoopEffect] at this
    simp [List.count_append, hnone, List.count_cons]
  · intro input term sig
    rfl

/-- Witness for C4: a run ended by the quit key and a run ended by a failed
read. -/
theorem main_shutdown_sequence_witness :
    (main atofDecimal ["teleop_control"] cookedExample 0
        [ReadOutcome.key KEYCODE_UP, ReadOutcome.key KEYCODE_Q]).effects =
      [Effect.publish { linear_x := 1, angular_z := 0 }, Effect.inputShutdown,
        Effect.rosShutdown, Effect.exit 0] ∧
    (main atofDecimal ["teleop_control"] cookedExample 0
        [ReadOutcome.key KEYCODE_UP, ReadOutcome.failure]).effects =
      [Effect.publish { linear_x := 1, angular_z := 0 }, Effect.perror,
        Effect.inputShutdown, Effect.rosShutdown, Effect.exit 0] := by
  constructor
  · rw [(main_shutdown_sequence atofDecimal ["teleop_control"] cookedExample 0
      [ReadOutcome.key KEYCODE_UP, ReadOutcome.key KEYCODE_Q] (by rfl)).1]
    simp [mainLoop, selectVel_default, keyLoop, loopFrom, keyIter_up, keyIter_quit,
      TeleopControl.create]
  · rw [(main_shutdown_sequence atofDecimal ["teleop_control"] cookedExample 0
      [ReadOutcome.key KEYCODE_UP, ReadOutcome.failure] (by rfl)).1]
    simp [mainLoop, selectVel_default, keyLoop, loopFrom, keyIter_up, keyIter_failure,
      TeleopControl.create]

/-- C5: the code at the failing input.  When `read` returns zero after an Up
key, `readOne` does not fail and leaves the old character in place, and
`keyLoop` publishes the Up command a second time and keeps running. -/
theorem keyLoop_end_of_input_republishes :
    inputExample.readOne ReadOutcome.endOfInput KEYCODE_UP =
      (inputExample, Except.ok KEYCODE_UP) ∧
    (keyLoop inputExample (TeleopControl.create 1 (1 / 2)) 0
        [ReadOutcome.key KEYCODE_UP, ReadOutcome.endOfInput]).effects =
      [Effect.publish { linear_x := 1, angular_z := 0 },
       Effect.publish { linear_x := 1, angular_z := 0 }] ∧
    (keyLoop inputExample (TeleopControl.create 1 (1 / 2)) 0
        [ReadOutcome.key KEYCODE_UP, ReadOutcome.endOfInput]).returned = false := by
  refine ⟨rfl, rfl, rfl⟩

/-- The part of C5 that holds: on an error return of `read`, `readOne` throws
and the iteration returns without publishing. -/
theorem keyIter_read_error_stops (input : KeyboardReader) (v : LoopVars) :
    (input.readOne ReadOutcome.failure v.c).2 = Except.error "read failed" ∧
    (keyIter input v ReadOutcome.failure).flow = Flow.returned ∧
    publishedOf (keyIter input v ReadOutcome.failure).effects = [] := by
  refine ⟨rfl, rfl, rfl⟩

/-- C6.  For every terminal configuration `term0` found by the constructor
and every sequence of read outcomes, the reader after the loop still holds
`term0` as its snapshot, and `KeyboardReader::shutdown`, whatever the
terminal configuration `term` at that moment, leaves the terminal with
configuration `term0`; a run of `main` ends with configuration `term0` when
the loop has returned, and with the raw configuration while it is blocked. -/
theorem reader_restores_startup_terminal (term0 term : Termios) (ctl : TeleopControl)
    (c0 : Int) (reads : List ReadOutcome) (atof : String → Vel) (argv : List String) :
    (KeyboardReader.create term0).1.cooked = term0 ∧
    (keyLoop (KeyboardReader.create term0).1 ctl c0 reads).input.cooked = term0 ∧
    ((keyLoop (KeyboardReader.create term0).1 ctl c0 reads).input.shutdown term).2 = term0 ∧
    (main atof argv term0 c0 reads).term =
      if (mainLoop atof argv term0 c0 reads).returned = true then term0 else rawOf term0 := by
  have hin : ∀ ctl1 : TeleopControl,
      (keyLoop (KeyboardReader.create term0).1 ctl1 c0 reads).input =
        (KeyboardReader.create term0).1 := fun ctl1 => loopFrom_input _ _ reads
  refine ⟨rfl, ?_, ?_, ?_⟩
  · rw [hin]; rfl
  · rw [hin]; rfl
  · cases hret : (mainLoop atof argv term0 c0 reads).returned
    · rw [main_blocked atof argv term0 c0 reads hret]
      simp
    · rw [main_returned atof argv term0 c0 reads hret]
      simp only [mainLoop, hin, if_true]
      rfl

/-- C7.  Calling `KeyboardReader::shutdown` twice leaves the reader (with its
snapshot) and the terminal configuration exactly as one call leaves them;
the call is total and leaves the snapshot as it was. -/
theorem shutdown_idempotent (input : KeyboardReader) (term : Termios) :
    (input.shutdown term).1.shutdown (input.shutdown term).2 = input.shutdown term ∧
    (input.shutdown term).1.cooked = input.cooked ∧
    (input.shutdown term).2 = input.cooked := by
  refine ⟨rfl, rfl, rfl⟩

/-- C8.  For every conversion function `atof` the C library may supply: with
no parameter, and with one parameter of any content, `main` configures the
maxima `1.0` and `0.5`; with exactly two parameters it configures the number
read from the first as maximum linear speed and the number read from the
second as maximum angular speed.  The maxima are those of the
`TeleopControl` object of the run.  With the parameters `2.5e1` and
` +7.5E-1` the maxima are `25` and `0.75`. -/
theorem main_parameter_selection (atof : String → Vel) (prog a b : String)
    (term0 : Termios) (c0 : Int) (reads : List ReadOutcome) :
    ((main atof [prog] term0 c0 reads).teleop_control.linear_vel_max = 1 ∧
      (main atof [prog] term0 c0 reads).teleop_control.angular_vel_max = 1 / 2) ∧
    ((main atof [prog, a] term0 c0 reads).teleop_control.linear_vel_max = 1 ∧
      (main atof [prog, a] term0 c0 reads).teleop_control.angular_vel_max = 1 / 2) ∧
    ((main atof [prog, a, b] term0 c0 reads).teleop_control.linear_vel_max = atof a ∧
      (main atof [prog, a, b] term0 c0 reads).teleop_control.angular_vel_max = atof b) ∧
    ((main atofDecimal [prog, "2.5e1", " +7.5E-1"] term0 c0
        reads).teleop_control.linear_vel_max = 25 ∧
      (main atofDecimal [prog, "2.5e1", " +7.5E-1"] term0 c0
        reads).teleop_control.angular_vel_max = 3 / 4) := by
  have hmax := fun f argv => main_teleop_control_max f argv term0 c0 reads
  refine ⟨?_, ?_, ?_, ?_⟩
  · rw [(hmax atof [prog]).1, (hmax atof [prog]).2, selectVel_default atof [prog] (by simp)]
    exact ⟨rfl, rfl⟩
  · rw [(hmax atof [prog, a]).1, (hmax atof [prog, a]).2,
      selectVel_default atof [prog, a] (by simp)]
    exact ⟨rfl, rfl⟩
  · rw [(hmax atof [prog, a, b]).1, (hmax atof [prog, a, b]).2, selectVel_two]
    exact ⟨rfl, rfl⟩
  · rw [(hmax atofDecimal [prog, "2.5e1", " +7.5E-1"]).1,
      (hmax atofDecimal [prog, "2.5e1", " +7.5E-1"]).2, selectVel_two,
      atofDecimal_example_exp, atofDecimal_example_negexp]
    exact ⟨rfl, rfl⟩

/-- C9, as stated, fails: with the two parameters `abc` and `-0.5`, of which
the first holds no number, so that `atof` performs no conversion and returns
zero, the configured maxima are `0` and `-0.5`, not the defaults `1.0` and
`0.5`. -/
theorem main_malformed_parameter_not_default :
    atofConverts "abc" = false ∧
    (main atofDecimal ["teleop_control", "abc", "-0.5"] cookedExample 0
        []).teleop_control.linear_vel_max = 0 ∧
    (main atofDecimal ["teleop_control", "abc", "-0.5"] cookedExample 0
        []).teleop_control.angular_vel_max = -(1 / 2) ∧
    ¬ ((main atofDecimal ["teleop_control", "abc", "-0.5"] cookedExample 0
          []).teleop_control.linear_vel_max = 1 ∧
      (main atofDecimal ["teleop_control", "abc", "-0.5"] cookedExample 0
          []).teleop_control.angular_vel_max = 1 / 2) := by
  have hm := main_teleop_control_max atofDecimal ["teleop_control", "abc", "-0.5"]
    cookedExample 0 []
  rw [selectVel_two, atofDecimal_example_abc, atofDecimal_example_neg] at hm
  refine ⟨by decide, hm.1, hm.2, ?_⟩
  rw [hm.1, hm.2]
  norm_num

/-- C9, amended.  Parameter selection is total, so `main` does not fail on any
parameter list.  For every conversion function `atof` that, like that of the
C library, returns zero for text on which no conversion can be performed:
when the list does not consist of exactly two parameters the maxima are the
defaults `1.0` and `0.5`, whatever the parameters look like; with exactly two
parameters each maximum is the value `atof` returns for its own parameter,
which is `0` for a parameter that holds no number. -/
theorem main_malformed_parameters (atof : String → Vel)
    (hatof : ∀ s : String, atofConverts s = false → atof s = 0)
    (argv : List String) (term0 : Termios) (c0 : Int) (reads : List ReadOutcome) :
    (argv.length ≠ 3 →
      (main atof argv term0 c0 reads).teleop_control.linear_vel_max = 1 ∧
      (main atof argv term0 c0 reads).teleop_control.angular_vel_max = 1 / 2) ∧
    (∀ prog a b : String, argv = [prog, a, b] →
      (main atof argv term0 c0 reads).teleop_control.linear_vel_max = atof a ∧
      (main atof argv term0 c0 reads).teleop_control.angular_vel_max = atof b ∧
      (atofConverts a = false →
        (main atof argv term0 c0 reads).teleop_control.linear_vel_max = 0) ∧
      (atofConverts b = false →
        (main atof argv term0 c0 reads).teleop_control.angular_vel_max = 0)) := by
  have hm := main_teleop_control_max atof argv term0 c0 reads
  constructor
  · intro hlen
    rw [selectVel_default atof argv hlen] at hm
    exact hm
  · intro prog a b hargv
    subst hargv
    rw [selectVel_two] at hm
    refine ⟨hm.1, hm.2, ?_, ?_⟩
    · intro ha
      rw [hm.1]
      exact hatof a ha
    · intro hb
      rw [hm.2]
      exact hatof b hb

/-- Witness for C9 amended: one malformed parameter alone gives the defaults,
and `abc` as first of two parameters gives maximum linear speed `0`. -/
theorem main_malformed_parameters_witness :
    ((main atofDecimal ["teleop_control", "abc"] cookedExample 0
        []).teleop_control.linear_vel_max = 1 ∧
      (main atofDecimal ["teleop_control", "abc"] cookedExample 0
        []).teleop_control.angular_vel_max = 1 / 2) ∧
    (main atofDecimal ["teleop_control", "abc", "-0.5"] cookedExample 0
        []).teleop_control.linear_vel_max = 0 :=
  ⟨(main_malformed_parameters atofDecimal atofDecimal_of_not_converts
      ["teleop_control", "abc"] cookedExample 0 []).1 (by decide),
   ((main_malformed_parameters atofDecimal atofDecimal_of_not_converts
      ["teleop_control", "abc", "-0.5"] cookedExample 0 []).2
      "teleop_control" "abc" "-0.5" rfl).2.2.1 (by decide)⟩

/-- C10.  For every sequence of delivered key codes and all maxima, the
commands `keyLoop` publishes are, in order, the commands the mapping table
gives for the arrow keys before the first quit key; their number is the
number of those arrow keys; the loop has no other effect; the keys after the
first quit key stay unread; and the loop has returned exactly when the
sequence holds a quit key.  Neither the initial content of `c` nor earlier
keys enter a command. -/
theorem keyLoop_publishes_arrows_before_quit (input : KeyboardReader)
    (ctl : TeleopControl) (c0 : Int) (keys : List Int) :
    publishedOf (keyLoop input ctl c0 (keys.map ReadOutcome.key)).effects =
      (beforeQuit keys).filterMap (specKeyMapper ctl.linear_vel_max ctl.angular_vel_max) ∧
    (publishedOf (keyLoop input ctl c0 (keys.map ReadOutcome.key)).effects).length =
      ((beforeQuit keys).filter isArrowKey).length ∧
    (keyLoop input ctl c0 (keys.map ReadOutcome.key)).effects =
      (publishedOf (keyLoop input ctl c0 (keys.map ReadOutcome.key)).effects).map
        Effect.publish ∧
    (keyLoop input ctl c0 (keys.map ReadOutcome.key)).unread =
      (afterQuit keys).map ReadOutcome.key ∧
    (keyLoop input ctl c0 (keys.map ReadOutcome.key)).returned =
      decide (KEYCODE_Q ∈ keys) := by
  obtain ⟨h1, h2, h3⟩ := loopFrom_keys input { ctl := ctl, c := c0, dirty := false } keys rfl
  have hp : publishedOf (keyLoop input ctl c0 (keys.map ReadOutcome.key)).effects =
      (beforeQuit keys).filterMap
        (specKeyMapper ctl.linear_vel_max ctl.angular_vel_max) := by
    unfold keyLoop
    rw [h1, publishedOf_map_publish]
  refine ⟨hp, ?_, ?_, h2, h3⟩
  · rw [hp, filterMap_length_eq_filter]
    congr 2
    funext k
    exact specKeyMapper_isSome _ _ k
  · rw [hp]
    exact h1

end Teleop
